import Mathlib

/-!
Verification of the solar-sim simulation core.

The Rust source is shallowly embedded in Lean.  f32 arithmetic is modelled by
exact rational arithmetic (the claims settled here are algebraic and do not
depend on rounding); the f32 square root used by cgmath magnitude and
normalize is modelled by Rat.sqrt, which agrees with it on the inputs where
the theorems below evaluate it.  Source literals written in scientific
form are taken at their exact decimal value.  A dedicated model F32 with
infinities and a NaN value is used for the one claim that is specifically
about IEEE special values (the zero-separation singularity of the gravity
computation).
-/

namespace SolarSim

/-- 3D vector over the rationals, modelling cgmath Vector3 of f32 and
Point3 of f32 (both are plain coordinate triples). -/
abbrev Vec3 : Type := ℚ × ℚ × ℚ

/-- Dot product of two vectors (cgmath InnerSpace dot). -/
def dot (v w : Vec3) : ℚ := v.1 * w.1 + v.2.1 * w.2.1 + v.2.2 * w.2.2

/-- cgmath magnitude: square root of the dot square.  Rat.sqrt models the
f32 square root; it is exact on perfect squares, which covers every input on
which the theorems below evaluate it. -/
def magnitude (v : Vec3) : ℚ := Rat.sqrt (dot v v)

/-- cgmath normalize: the vector times one over its magnitude. -/
def normalize (v : Vec3) : Vec3 := (1 / magnitude v) • v

/-- Gravitational constant, physics/mod.rs: pub const G: f32 = 6.67e-11. -/
def G : ℚ := 6.67e-11

/-- An entity of the specs world, restricted to the component types the
physics module declares: Mass, Position, Velocity, Acceleration (each
optional, as in the component store) and the presence-only Planet marker.
eid models the specs Entity identifier. -/
structure Entity where
  eid : Nat
  mass : Option ℚ
  pos : Option Vec3
  vel : Option Vec3
  acc : Option Vec3
  planet : Bool
deriving DecidableEq

/-- One inner-loop body of Gravity::run for a pair of distinct entities:
let r = other_pos - this_pos; let acc = G * other_mass / r.magnitude().powi(2);
the contribution added to this_acc is acc * r.normalize(). -/
def gravContrib (thisPos : Vec3) (otherMass : ℚ) (otherPos : Vec3) : Vec3 :=
  let r : Vec3 := otherPos - thisPos
  (G * otherMass / magnitude r ^ 2) • normalize r

/-- The inner loop of Gravity::run: starting from Vector3::zero(), fold over
the (ent, mass, pos) join — i.e. over every entity having Mass and
Position — adding the pair contribution whenever this != other. -/
def gravityAccel (w : List Entity) (tid : Nat) (tpos : Vec3) : Vec3 :=
  w.foldl
    (fun a o =>
      match o.mass, o.pos with
      | some om, some op => if tid ≠ o.eid then a + gravContrib tpos om op else a
      | _, _ => a)
    0

/-- The per-entity body of the Gravity::run outer loop: the loop joins
(ent, mass, pos, mut acc), so exactly the entities having Mass, Position and
Acceleration get their Acceleration overwritten (zeroed, then accumulated by
the inner loop); every other entity is untouched. -/
def gravityUpdate (w : List Entity) (e : Entity) : Entity :=
  match e.mass, e.pos, e.acc with
  | some _, some p, some _ => { e with acc := some (gravityAccel w e.eid p) }
  | _, _, _ => e

/-- Gravity::run.  The inner loop reads only entity ids, Mass and Position —
never Acceleration — so the sequential in-place Acceleration writes of the
Rust loop are equivalent to this map over the unmodified world. -/
def gravity (w : List Entity) : List Entity :=
  w.map (gravityUpdate w)

/-- One summand of the acceleration formula as the spec states it: for an
entity O other than E that has Mass and Position, G times mass(O) over the
squared distance, times the unit vector from pos(E) toward pos(O); zero for
E itself and for entities lacking Mass or Position.  Written from the spec
text, to be compared with the source embedding. -/
def specTerm (eid : Nat) (epos : Vec3) (o : Entity) : Vec3 :=
  match o.mass, o.pos with
  | some om, some op =>
    if o.eid ≠ eid then (G * om / magnitude (op - epos) ^ 2) • normalize (op - epos)
    else 0
  | _, _ => 0

/-- The spec acceleration formula: the sum of specTerm over the whole world. -/
def specAccel (w : List Entity) (eid : Nat) (epos : Vec3) : Vec3 :=
  (w.map (specTerm eid epos)).sum

/-- The Acceleration component of the entity stored at index i. -/
def accAt (w : List Entity) (i : Nat) : Option Vec3 := (w[i]?).bind Entity.acc

/-- The Velocity component of the entity stored at index i. -/
def velAt (w : List Entity) (i : Nat) : Option Vec3 := (w[i]?).bind Entity.vel

/-- The Position component of the entity stored at index i. -/
def posAt (w : List Entity) (i : Nat) : Option Vec3 := (w[i]?).bind Entity.pos

/-- Replace the value of every present Acceleration component by b, keeping
presence and every other component unchanged.  Used to state that Gravity
does not depend on the Acceleration values found before the run. -/
def overwriteAcc (w : List Entity) (b : Vec3) : List Entity :=
  w.map fun e => { e with acc := e.acc.map fun _ => b }

/-- Mechanics::run.  First loop, over the (acc, mut vel) join:
vel += acc * delta * speed.  Second loop, over the (vel, mut pos) join,
reading the velocities the first loop just wrote: pos += vel * delta * speed.
cgmath multiplies a vector by a scalar componentwise, so
a * dt * speed = (dt * speed) • a. -/
def mechanics (speed dt : ℚ) (w : List Entity) : List Entity :=
  let w1 := w.map fun e =>
    match e.acc, e.vel with
    | some a, some v => { e with vel := some (v + (dt * speed) • a) }
    | _, _ => e
  w1.map fun e =>
    match e.vel, e.pos with
    | some v, some p => { e with pos := some (p + (dt * speed) • v) }
    | _, _ => e

/-- The Controls resource, control.rs. -/
structure Controls where
  is_up_pressed : Bool
  is_down_pressed : Bool
  is_forward_pressed : Bool
  is_backward_pressed : Bool
  is_left_pressed : Bool
  is_right_pressed : Bool
  mouse_dx : ℚ
  mouse_dy : ℚ
  mouse_scroll : ℚ
deriving DecidableEq

/-- The derived Default of Controls: all flags false, all deltas zero. -/
def Controls.default : Controls := ⟨false, false, false, false, false, false, 0, 0, 0⟩

/-- Controls::process_mouse: stores the event delta (an f64 pair, cast
componentwise to f32) into mouse_dx and mouse_dy by plain assignment. -/
def process_mouse (c : Controls) (d : ℚ × ℚ) : Controls :=
  { c with mouse_dx := d.1, mouse_dy := d.2 }

/-- winit MouseScrollDelta: a line-based delta or a pixel position delta
(only the vertical coordinate is consumed by process_wheel). -/
inductive MouseScrollDelta where
  | lineDelta (x scroll : ℚ)
  | pixelDelta (x scroll : ℚ)
deriving DecidableEq

/-- Controls::process_wheel: stores -scroll * 0.5 for a line delta and
-y for a pixel delta into mouse_scroll by plain assignment. -/
def process_wheel (c : Controls) (delta : MouseScrollDelta) : Controls :=
  { c with
    mouse_scroll :=
      match delta with
      | MouseScrollDelta.lineDelta _ scroll => -scroll * 0.5
      | MouseScrollDelta.pixelDelta _ scroll => -scroll }

/-- winit ElementState. -/
inductive ElementState where
  | pressed
  | released
deriving DecidableEq

/-- The winit virtual keycodes matched by process_keyboard, plus a catch-all
constructor standing for every other keycode of the winit enum. -/
inductive VirtualKeyCode where
  | space
  | lshift
  | w
  | up
  | a
  | left
  | s
  | down
  | d
  | right
  | other (code : Nat)
deriving DecidableEq

/-- The winit KeyboardInput fields read by process_keyboard. -/
structure KeyboardInput where
  state : ElementState
  virtual_keycode : Option VirtualKeyCode
deriving DecidableEq

/-- The source boolean is_pressed = (*state == ElementState::Pressed). -/
def pressedBool : ElementState → Bool
  | ElementState.pressed => true
  | ElementState.released => false

/-- Controls::process_keyboard: a let-else returns false when there is no
virtual keycode; a recognized keycode sets the matching movement flag to
is_pressed and returns true; any other keycode falls to the wildcard arm
returning false.  The returned pair is (updated controls, return value),
making the in-place mutation explicit. -/
def process_keyboard (c : Controls) (input : KeyboardInput) : Controls × Bool :=
  match input.virtual_keycode with
  | none => (c, false)
  | some keycode =>
    let is_pressed := pressedBool input.state
    match keycode with
    | VirtualKeyCode.space => ({ c with is_up_pressed := is_pressed }, true)
    | VirtualKeyCode.lshift => ({ c with is_down_pressed := is_pressed }, true)
    | VirtualKeyCode.w => ({ c with is_forward_pressed := is_pressed }, true)
    | VirtualKeyCode.up => ({ c with is_forward_pressed := is_pressed }, true)
    | VirtualKeyCode.a => ({ c with is_left_pressed := is_pressed }, true)
    | VirtualKeyCode.left => ({ c with is_left_pressed := is_pressed }, true)
    | VirtualKeyCode.s => ({ c with is_backward_pressed := is_pressed }, true)
    | VirtualKeyCode.down => ({ c with is_backward_pressed := is_pressed }, true)
    | VirtualKeyCode.d => ({ c with is_right_pressed := is_pressed }, true)
    | VirtualKeyCode.right => ({ c with is_right_pressed := is_pressed }, true)
    | VirtualKeyCode.other _ => (c, false)

/-- The Camera resource, render/camera.rs: a position and two angles
(the Rad wrapper is a plain f32 newtype). -/
structure Camera where
  position : Vec3
  yaw : ℚ
  pitch : ℚ
deriving DecidableEq

/-- The derived-by-hand Default of Camera: origin, zero angles. -/
def Camera.default : Camera := ⟨(0, 0, 0), 0, 0⟩

/-- Camera::direction, with the sine and cosine functions supplied as
parameters (f32 trigonometry has no exact rational counterpart; every
property proved below holds for arbitrary sn and cs). -/
def direction (sn cs : ℚ → ℚ) (c : Camera) : Vec3 :=
  normalize (cs c.pitch * cs c.yaw, sn c.pitch, cs c.pitch * sn c.yaw)

/-- SAFE_FRAC_PI_2 = std::f32::consts::FRAC_PI_2 - 0.0001, evaluated
exactly in f32: 13176795 / 2^23 - 13743895 / 2^37 rounded to f32 gives
13175956 / 2^23 = 3293989 / 2^21. -/
def SAFE_FRAC_PI_2 : ℚ := 3293989 / 2097152

/-- The ControlCamera system struct: movement speed and mouse sensitivity. -/
structure ControlCamera where
  speed : ℚ
  sensitivity : ℚ
deriving DecidableEq

/-- ControlCamera::default: speed 10.0, sensitivity 1.0. -/
def ControlCamera.default : ControlCamera := ⟨10, 1⟩

/-- The source (flag as u8 as f32) cast. -/
def boolToRat (b : Bool) : ℚ := if b then 1 else 0

/-- ControlCamera::run, step by step in source order: planar movement along
the yaw basis, zoom along the look direction followed by draining
mouse_scroll, vertical movement on the y coordinate, rotation from the mouse
deltas followed by draining mouse_dx and mouse_dy, and finally the pitch
clamp.  Returns the written (Controls, Camera) pair. -/
def controlCameraRun (sn cs : ℚ → ℚ) (cc : ControlCamera) (dt : ℚ)
    (controls : Controls) (camera : Camera) : Controls × Camera :=
  let yaw_sin := sn camera.yaw
  let yaw_cos := cs camera.yaw
  let forward := normalize (yaw_cos, 0, yaw_sin)
  let right := normalize (-yaw_sin, 0, yaw_cos)
  let p1 := camera.position +
    ((boolToRat controls.is_forward_pressed - boolToRat controls.is_backward_pressed) *
      cc.speed * dt) • forward
  let p2 := p1 +
    ((boolToRat controls.is_right_pressed - boolToRat controls.is_left_pressed) *
      cc.speed * dt) • right
  let dir := direction sn cs { camera with position := p2 }
  let p3 := p2 + (controls.mouse_scroll * cc.speed * cc.sensitivity * dt) • dir
  let controls1 := { controls with mouse_scroll := 0 }
  let p4 : Vec3 :=
    (p3.1,
      p3.2.1 + (boolToRat controls1.is_up_pressed - boolToRat controls1.is_down_pressed) *
        cc.speed * dt,
      p3.2.2)
  let yaw1 := camera.yaw + controls1.mouse_dx * cc.sensitivity * dt
  let pitch1 := camera.pitch + -controls1.mouse_dy * cc.sensitivity * dt
  let controls2 := { controls1 with mouse_dx := 0, mouse_dy := 0 }
  let pitch2 :=
    if pitch1 < -SAFE_FRAC_PI_2 then -SAFE_FRAC_PI_2
    else if pitch1 > SAFE_FRAC_PI_2 then SAFE_FRAC_PI_2
    else pitch1
  (controls2, { position := p4, yaw := yaw1, pitch := pitch2 })

/-- One row of the PLANETS table, physics/planets.rs. -/
structure PlanetData where
  name : String
  position : Vec3
  velocity : Vec3
  mass : ℚ
deriving DecidableEq

/-- The fixed PLANETS table.  The f32 literals of the source are taken at
their exact decimal value. -/
def PLANETS : List PlanetData :=
  [ ⟨"sun", (0, 0, 0), (0, 0, 0), 1.989e30⟩,
    ⟨"mercury", (57.909e9, 0, 0), (0, 0, 47.36e3), 0.33011e24⟩,
    ⟨"venus", (108.209e9, 0, 0), (0, 0, 35.02e3), 4.8675e24⟩,
    ⟨"earth", (149.596e9, 0, 0), (0, 0, 29.78e3), 5.9724e24⟩,
    ⟨"mars", (227.923e9, 0, 0), (0, 0, 24.07e3), 0.64171e24⟩,
    ⟨"jupiter", (778.570e9, 0, 0), (0, 0, 13e3), 1898.19e24⟩,
    ⟨"saturn", (1433.529e9, 0, 0), (0, 0, 9.68e3), 568.34e24⟩,
    ⟨"uranus", (2872.463e9, 0, 0), (0, 0, 6.80e3), 86.813e24⟩,
    ⟨"neptune", (4495.060e9, 0, 0), (0, 0, 5.43e3), 102.413e24⟩ ]

/-- build_planets: one entity per PLANETS row, built with the Planet marker,
the row position and velocity, a zero Acceleration and the row mass.  The
entity ids created by a fresh world are consecutive, modelled by the row
index. -/
def build_planets : List Entity :=
  PLANETS.enum.map fun ip =>
    { eid := ip.1, mass := some ip.2.mass, pos := some ip.2.position,
      vel := some ip.2.velocity, acc := some 0, planet := true }

/-- The systems of the crate.  Gravity and mechanics are listed so that
statements about their presence in the schedule can be made. -/
inductive SystemId where
  | timer
  | camera
  | render
  | gravity
  | mechanics
deriving DecidableEq

/-- The dispatcher built in lib.rs run(): with(Timer, "timer", []) then
with(ControlCamera, "camera", ["timer"]), each paired with its declared
dependency list. -/
def registeredSystems : List (SystemId × List SystemId) :=
  [(SystemId.timer, []), (SystemId.camera, [SystemId.timer])]

/-- The thread-local systems of the dispatcher: with_thread_local(Render). -/
def threadLocalSystems : List SystemId := [SystemId.render]

/-- Every system the dispatcher ever runs in a frame. -/
def dispatchedSystems : List SystemId :=
  registeredSystems.map Prod.fst ++ threadLocalSystems

/-- A registered dependency is respected when it appears strictly before
its dependent in the order. -/
def respectsDeps (ord : List SystemId) : Bool :=
  registeredSystems.all fun sd => sd.2.all fun d => ord.indexOf d < ord.indexOf sd.1

/-- The execution orders the specs dispatcher may produce in a frame: a
permutation of the dispatched systems that respects every declared
dependency (thread-locals additionally run last; that refinement is not
needed for the claims below). -/
def isExecutionOrder (ord : List SystemId) : Prop :=
  ord ∈ dispatchedSystems.permutations ∧ respectsDeps ord = true

/-- A model of f32 with the IEEE special values needed to trace the
zero-separation gravity computation: finite values are exact rationals,
plus positive infinity, negative infinity and NaN.  Signed zero is not
modelled (the traced computation never produces a negative zero). -/
inductive F32 where
  | fin (q : ℚ)
  | inf
  | neginf
  | nan
deriving DecidableEq

/-- IEEE addition on the model. -/
def F32.add : F32 → F32 → F32
  | nan, _ => nan
  | _, nan => nan
  | inf, neginf => nan
  | neginf, inf => nan
  | inf, _ => inf
  | _, inf => inf
  | neginf, _ => neginf
  | _, neginf => neginf
  | fin a, fin b => fin (a + b)

/-- IEEE multiplication on the model: infinity times zero is NaN. -/
def F32.mul : F32 → F32 → F32
  | nan, _ => nan
  | _, nan => nan
  | fin a, fin b => fin (a * b)
  | inf, inf => inf
  | inf, neginf => neginf
  | neginf, inf => neginf
  | neginf, neginf => inf
  | inf, fin b => if 0 < b then inf else if b < 0 then neginf else nan
  | fin a, inf => if 0 < a then inf else if a < 0 then neginf else nan
  | neginf, fin b => if 0 < b then neginf else if b < 0 then inf else nan
  | fin a, neginf => if 0 < a then neginf else if a < 0 then inf else nan

/-- IEEE division on the model: a nonzero finite value over zero is a signed
infinity, zero over zero is NaN. -/
def F32.div : F32 → F32 → F32
  | nan, _ => nan
  | _, nan => nan
  | fin a, fin b =>
    if b = 0 then (if 0 < a then inf else if a < 0 then neginf else nan)
    else fin (a / b)
  | fin _, inf => fin 0
  | fin _, neginf => fin 0
  | inf, fin b => if b < 0 then neginf else inf
  | neginf, fin b => if b < 0 then inf else neginf
  | inf, inf => nan
  | inf, neginf => nan
  | neginf, inf => nan
  | neginf, neginf => nan

/-- IEEE negation on the model. -/
def F32.neg : F32 → F32
  | nan => nan
  | inf => neginf
  | neginf => inf
  | fin a => fin (-a)

/-- IEEE subtraction on the model. -/
def F32.sub (a b : F32) : F32 := a.add b.neg

/-- IEEE square root on the model; finite nonnegative arguments use
Rat.sqrt, exact at the zero the trace needs. -/
def F32.sqrt : F32 → F32
  | nan => nan
  | neginf => nan
  | inf => inf
  | fin q => if q < 0 then nan else fin (Rat.sqrt q)

/-- Vector of model floats. -/
abbrev Vec3F : Type := F32 × F32 × F32

/-- Componentwise vector sum over the model floats. -/
def addF (v w : Vec3F) : Vec3F := (v.1.add w.1, v.2.1.add w.2.1, v.2.2.add w.2.2)

/-- Componentwise vector difference over the model floats. -/
def subF (v w : Vec3F) : Vec3F := (v.1.sub w.1, v.2.1.sub w.2.1, v.2.2.sub w.2.2)

/-- Scalar times vector over the model floats. -/
def smulF (s : F32) (v : Vec3F) : Vec3F := (s.mul v.1, s.mul v.2.1, s.mul v.2.2)

/-- Dot product over the model floats. -/
def dotF (v w : Vec3F) : F32 :=
  ((v.1.mul w.1).add (v.2.1.mul w.2.1)).add (v.2.2.mul w.2.2)

/-- cgmath magnitude over the model floats. -/
def magnitudeF (v : Vec3F) : F32 := (dotF v v).sqrt

/-- cgmath normalize over the model floats: v * (1 / magnitude v). -/
def normalizeF (v : Vec3F) : Vec3F := smulF ((F32.fin 1).div (magnitudeF v)) v

/-- The zero vector over the model floats. -/
def zeroF : Vec3F := (F32.fin 0, F32.fin 0, F32.fin 0)

/-- An entity with model-float components, for the singularity trace. -/
structure EntityF where
  eid : Nat
  mass : Option F32
  pos : Option Vec3F
  vel : Option Vec3F
  acc : Option Vec3F
  planet : Bool
deriving DecidableEq

/-- The Gravity::run pair contribution over the model floats:
G * other_mass / r.magnitude().powi(2) times r.normalize(). -/
def gravContribF (tpos : Vec3F) (omass : F32) (opos : Vec3F) : Vec3F :=
  let r := subF opos tpos
  smulF (((F32.fin G).mul omass).div ((magnitudeF r).mul (magnitudeF r))) (normalizeF r)

/-- The Gravity::run inner loop over the model floats. -/
def gravityAccelF (w : List EntityF) (tid : Nat) (tpos : Vec3F) : Vec3F :=
  w.foldl
    (fun a o =>
      match o.mass, o.pos with
      | some om, some op => if tid ≠ o.eid then addF a (gravContribF tpos om op) else a
      | _, _ => a)
    zeroF

/-- Gravity::run over the model floats. -/
def gravityF (w : List EntityF) : List EntityF :=
  w.map fun e =>
    match e.mass, e.pos, e.acc with
    | some _, some p, some _ => { e with acc := some (gravityAccelF w e.eid p) }
    | _, _, _ => e

/-- The Acceleration of the model-float entity stored at index i. -/
def accAtF (w : List EntityF) (i : Nat) : Option Vec3F := (w[i]?).bind EntityF.acc

/-- Two distinct massed entities at exactly the same position, the
zero-separation degenerate input. -/
def coincidentPair : List EntityF :=
  [⟨0, some (F32.fin 1), some zeroF, none, some zeroF, true⟩,
   ⟨1, some (F32.fin 1), some zeroF, none, some zeroF, true⟩]

/-- A two-body world: entity 0 carries Mass, Position and Acceleration,
entity 1 only Mass and Position. -/
def gravityProbe : List Entity :=
  [⟨0, some 2, some (0, 0, 0), none, some 0, false⟩,
   ⟨1, some 3, some (1, 0, 0), none, none, false⟩]

/-- A single entity with Position, Velocity and Acceleration. -/
def mechanicsProbe : List Entity :=
  [⟨0, none, some (0, 0, 0), some (0, 0, 0), some (1, 0, 0), false⟩]

/-- The camera written by one ControlCamera run from the default state under
a large downward mouse delta (dy = -10), with dt = 1, constant trigonometric
stubs and the default speed and sensitivity. -/
def pitchProbe : Camera :=
  (controlCameraRun (fun _ => 0) (fun _ => 1) ControlCamera.default 1
    { Controls.default with mouse_dy := -10 } Camera.default).2

/- ------------------------------------------------------------------ -/
/- Helper lemmas                                                      -/
/- ------------------------------------------------------------------ -/

/-- Mapping two pointwise-equal functions over a list gives equal lists. -/
lemma map_pointwise_eq {α β : Type} (f g : α → β) :
    ∀ l : List α, (∀ x, x ∈ l → f x = g x) → l.map f = l.map g := by
  intro l
  induction l with
  | nil => intro _; rfl
  | cons x xs ih =>
    intro h
    simp only [List.map_cons, List.cons.injEq]
    exact ⟨h x (List.mem_cons_self x xs), ih fun y hy => h y (List.mem_cons_of_mem _ hy)⟩

/-- A nonzero rational times a nonzero vector is nonzero. -/
lemma smul_vec3_ne_zero {k : ℚ} {a : Vec3} (hk : k ≠ 0) (ha : a ≠ 0) : k • a ≠ 0 := by
  rcases a with ⟨a1, a2, a3⟩
  intro h
  apply ha
  simp only [Prod.smul_mk, smul_eq_mul, Prod.mk_eq_zero] at h
  obtain ⟨h1, h2, h3⟩ := h
  simp only [Prod.mk_eq_zero]
  exact ⟨(mul_eq_zero.mp h1).resolve_left hk,
    (mul_eq_zero.mp h2).resolve_left hk,
    (mul_eq_zero.mp h3).resolve_left hk⟩

/-- One step of the Gravity inner loop adds exactly one specTerm summand. -/
lemma gravityStep_eq (tid : Nat) (tpos : Vec3) (a : Vec3) (o : Entity) :
    (match o.mass, o.pos with
     | some om, some op => if tid ≠ o.eid then a + gravContrib tpos om op else a
     | _, _ => a) = a + specTerm tid tpos o := by
  rcases o with ⟨oid, om, op, ov, oa, opl⟩
  cases om <;> cases op <;> simp only [specTerm, gravContrib, add_zero]
  by_cases h : tid = oid
  · subst h
    simp
  · rw [if_pos h, if_pos (Ne.symm h)]

/-- The Gravity inner loop fold, from any accumulator, adds the spec sum. -/
lemma gravityAccel_aux (tid : Nat) (tpos : Vec3) :
    ∀ (w : List Entity) (a0 : Vec3),
      w.foldl
        (fun a o =>
          match o.mass, o.pos with
          | some om, some op => if tid ≠ o.eid then a + gravContrib tpos om op else a
          | _, _ => a)
        a0 = a0 + specAccel w tid tpos := by
  intro w
  induction w with
  | nil => intro a0; simp [specAccel]
  | cons o rest ih =>
    intro a0
    simp only [List.foldl_cons]
    rw [gravityStep_eq, ih]
    simp only [specAccel, List.map_cons, List.sum_cons]
    rw [add_assoc]

/-- The Gravity inner loop computes exactly the spec formula. -/
lemma gravityAccel_eq_specAccel (w : List Entity) (tid : Nat) (tpos : Vec3) :
    gravityAccel w tid tpos = specAccel w tid tpos := by
  have h := gravityAccel_aux tid tpos w 0
  rw [zero_add] at h
  exact h

/-- specTerm reads only the id, Mass and Position of the other entity. -/
lemma specTerm_proj (tid : Nat) (tpos : Vec3) (e e2 : Entity) (hid : e2.eid = e.eid)
    (hm : e2.mass = e.mass) (hp : e2.pos = e.pos) :
    specTerm tid tpos e2 = specTerm tid tpos e := by
  unfold specTerm
  rw [hid, hm, hp]

/-- The spec sum is unchanged by any map that preserves ids, Mass and
Position. -/
lemma specAccel_map (f : Entity → Entity)
    (hf : ∀ e, (f e).eid = e.eid ∧ (f e).mass = e.mass ∧ (f e).pos = e.pos)
    (w : List Entity) (tid : Nat) (tpos : Vec3) :
    specAccel (w.map f) tid tpos = specAccel w tid tpos := by
  unfold specAccel
  rw [List.map_map]
  congr 1
  apply map_pointwise_eq
  intro e _
  exact specTerm_proj tid tpos e (f e) (hf e).1 (hf e).2.1 (hf e).2.2

/-- gravityUpdate preserves the id, Mass and Position of its entity. -/
lemma gravityUpdate_proj (w : List Entity) (e : Entity) :
    (gravityUpdate w e).eid = e.eid ∧ (gravityUpdate w e).mass = e.mass ∧
      (gravityUpdate w e).pos = e.pos := by
  rcases e with ⟨i, m, p, v, a, pl⟩
  cases m <;> cases p <;> cases a <;> simp [gravityUpdate]

/-- The inner-loop result is unchanged when computed over a post-Gravity
world. -/
lemma gravityAccel_gravity (w : List Entity) (tid : Nat) (tpos : Vec3) :
    gravityAccel (gravity w) tid tpos = gravityAccel w tid tpos := by
  rw [gravityAccel_eq_specAccel, gravityAccel_eq_specAccel]
  exact specAccel_map (gravityUpdate w) (gravityUpdate_proj w) w tid tpos

/-- The spec sum is unchanged when every Acceleration value is overwritten
beforehand. -/
lemma specAccel_overwriteAcc (w : List Entity) (b : Vec3) (tid : Nat) (tpos : Vec3) :
    specAccel (overwriteAcc w b) tid tpos = specAccel w tid tpos := by
  unfold overwriteAcc
  exact specAccel_map (fun e => { e with acc := e.acc.map fun _ => b })
    (fun e => ⟨rfl, rfl, rfl⟩) w tid tpos

/-- The inner-loop result is unchanged when every Acceleration value is
overwritten beforehand. -/
lemma gravityAccel_overwriteAcc (w : List Entity) (b : Vec3) (tid : Nat) (tpos : Vec3) :
    gravityAccel (overwriteAcc w b) tid tpos = gravityAccel w tid tpos := by
  rw [gravityAccel_eq_specAccel, gravityAccel_eq_specAccel, specAccel_overwriteAcc]

/- ------------------------------------------------------------------ -/
/- Claim theorems                                                     -/
/- ------------------------------------------------------------------ -/

/-- C1: one Gravity run overwrites the Acceleration of every entity that has
Mass, Position and Acceleration with the spec sum — over every other entity
having Mass and Position — of G times mass(O) over the squared distance
times the unit vector from pos(E) toward pos(O); and the result does not
depend on the Acceleration values present before the run: overwriting every
Acceleration value by an arbitrary vector b beforehand yields the same
output. -/
theorem gravity_run_matches_spec_formula (w : List Entity) (i : Nat) (e : Entity)
    (p : Vec3) (m : ℚ) (a0 : Vec3) (hget : w[i]? = some e) (hm : e.mass = some m)
    (hp : e.pos = some p) (ha : e.acc = some a0) :
    accAt (gravity w) i = some (specAccel w e.eid p) ∧
    ∀ b : Vec3, accAt (gravity (overwriteAcc w b)) i = some (specAccel w e.eid p) := by
  constructor
  · simp only [accAt, gravity, List.getElem?_map, hget, Option.map_some', Option.some_bind]
    simp only [gravityUpdate, hm, hp, ha, gravityAccel_eq_specAccel]
  · intro b
    simp only [accAt, gravity, overwriteAcc, List.map_map, List.getElem?_map, hget,
      Option.map_some', Option.some_bind, Function.comp_apply]
    simp only [gravityUpdate, hm, hp, ha, Option.map_some']
    rw [← overwriteAcc]
    simp only [gravityAccel_overwriteAcc, gravityAccel_eq_specAccel, specAccel_overwriteAcc]

/-- C1 witness: the theorem applied to the concrete two-body world
gravityProbe at index 0, with the prior Acceleration overwritten by
(5, 5, 5) in the second part. -/
theorem gravity_run_matches_spec_formula_witness :
    gravityProbe[0]? = some ⟨0, some 2, some (0, 0, 0), none, some 0, false⟩ ∧
    accAt (gravity gravityProbe) 0 = some (specAccel gravityProbe 0 (0, 0, 0)) ∧
    accAt (gravity (overwriteAcc gravityProbe (5, 5, 5))) 0 =
      some (specAccel gravityProbe 0 (0, 0, 0)) := by
  have h := gravity_run_matches_spec_formula gravityProbe 0
    ⟨0, some 2, some (0, 0, 0), none, some 0, false⟩ (0, 0, 0) 2 0 rfl rfl rfl rfl
  exact ⟨rfl, h.1, h.2 (5, 5, 5)⟩

/-- C2: Mechanics performs semi-implicit Euler integration: for an entity
with Position, Velocity and Acceleration, one run first sets
velocity2 = velocity + acceleration * dt * simSpeed and then sets
position2 = position + velocity2 * dt * simSpeed, using the new velocity;
with simSpeed = 1 and nonzero acceleration and dt the resulting position
differs from p0 + v0 * dt. -/
theorem mechanics_semi_implicit_euler (speed dt : ℚ) (w : List Entity) (i : Nat)
    (e : Entity) (p v a : Vec3) (hget : w[i]? = some e) (hp : e.pos = some p)
    (hv : e.vel = some v) (ha : e.acc = some a) :
    velAt (mechanics speed dt w) i = some (v + (dt * speed) • a) ∧
    posAt (mechanics speed dt w) i = some (p + (dt * speed) • (v + (dt * speed) • a)) ∧
    (speed = 1 → dt ≠ 0 → a ≠ 0 →
      posAt (mechanics speed dt w) i ≠ some (p + (dt * speed) • v)) := by
  have hvel : velAt (mechanics speed dt w) i = some (v + (dt * speed) • a) := by
    simp only [velAt, mechanics, List.map_map, List.getElem?_map, hget, Option.map_some',
      Option.some_bind, Function.comp_apply]
    simp only [ha, hv, hp]
  have hpos : posAt (mechanics speed dt w) i =
      some (p + (dt * speed) • (v + (dt * speed) • a)) := by
    simp only [posAt, mechanics, List.map_map, List.getElem?_map, hget, Option.map_some',
      Option.some_bind, Function.comp_apply]
    simp only [ha, hv, hp]
  refine ⟨hvel, hpos, ?_⟩
  intro hs hdt hha heq
  rw [hpos] at heq
  have h2 : p + (dt * speed) • (v + (dt * speed) • a) = p + (dt * speed) • v :=
    Option.some.inj heq
  rw [smul_add] at h2
  have h3 : (dt * speed) • v + (dt * speed) • (dt * speed) • a = (dt * speed) • v :=
    add_left_cancel (by rw [← add_assoc] at h2; rw [add_assoc] at h2; exact h2)
  have h4 : (dt * speed * (dt * speed)) • a = 0 := by
    rw [mul_smul]
    exact add_right_eq_self.mp h3
  have hk : dt * speed ≠ 0 := by
    rw [hs, mul_one]
    exact hdt
  exact smul_vec3_ne_zero (mul_ne_zero hk hk) hha h4

/-- C2 witness: the theorem applied to the one-entity world mechanicsProbe
with dt = 2 and simSpeed = 1. -/
theorem mechanics_semi_implicit_euler_witness :
    mechanicsProbe[0]? = some ⟨0, none, some (0, 0, 0), some (0, 0, 0), some (1, 0, 0), false⟩ ∧
    velAt (mechanics 1 2 mechanicsProbe) 0 =
      some ((0, 0, 0) + ((2 : ℚ) * 1) • ((1, 0, 0) : Vec3)) ∧
    posAt (mechanics 1 2 mechanicsProbe) 0 =
      some ((0, 0, 0) + ((2 : ℚ) * 1) • ((0, 0, 0) + ((2 : ℚ) * 1) • ((1, 0, 0) : Vec3))) ∧
    posAt (mechanics 1 2 mechanicsProbe) 0 ≠
      some ((0, 0, 0) + ((2 : ℚ) * 1) • ((0, 0, 0) : Vec3)) := by
  have h := mechanics_semi_implicit_euler 1 2 mechanicsProbe 0
    ⟨0, none, some (0, 0, 0), some (0, 0, 0), some (1, 0, 0), false⟩
    (0, 0, 0) (0, 0, 0) (1, 0, 0) rfl rfl rfl rfl
  exact ⟨rfl, h.1, h.2.1, h.2.2 rfl (by norm_num) (by decide)⟩

/-- C5: Gravity is idempotent — running it twice with no intervening system
leaves the world, and in particular every Acceleration component, exactly as
after the first run, because the computed Acceleration reads only the
current Position and Mass components, which Gravity never writes. -/
theorem gravity_idempotent (w : List Entity) : gravity (gravity w) = gravity w := by
  show (w.map (gravityUpdate w)).map (gravityUpdate (gravity w)) = w.map (gravityUpdate w)
  rw [List.map_map]
  apply map_pointwise_eq
  intro e _
  show gravityUpdate (gravity w) (gravityUpdate w e) = gravityUpdate w e
  rcases e with ⟨i, m, p, v, a, pl⟩
  cases m <;> cases p <;> cases a <;>
    simp [gravityUpdate, gravityAccel_gravity]

/-- C3: refuted — when two distinct entities with Mass, Position and
Acceleration coincide exactly, Gravity::run divides G * m by a zero squared
magnitude (giving positive infinity) and multiplies it by normalize of the
zero vector (whose components are zero times infinity, NaN), writing NaN
into the Acceleration of both entities. -/
theorem gravity_zero_separation_writes_nan :
    accAtF (gravityF coincidentPair) 0 = some (F32.nan, F32.nan, F32.nan) ∧
    accAtF (gravityF coincidentPair) 1 = some (F32.nan, F32.nan, F32.nan) := by
  constructor <;>
    norm_num [accAtF, gravityF, coincidentPair, gravityAccelF, gravContribF, subF, addF,
      smulF, dotF, magnitudeF, normalizeF, zeroF, F32.add, F32.mul, F32.div, F32.sub,
      F32.neg, F32.sqrt, G]

/-- C4: refuted — the dispatcher built by lib.rs run() registers only the
Timer system, the ControlCamera system and the thread-local Render system;
no execution order it can produce contains the Mechanics or the Gravity
system at all, so the claimed Timer-before-Mechanics and
Gravity-before-Mechanics orderings never occur. -/
theorem mechanics_gravity_never_scheduled (ord : List SystemId)
    (h : isExecutionOrder ord) :
    SystemId.mechanics ∉ ord ∧ SystemId.gravity ∉ ord := by
  obtain ⟨hperm, -⟩ := h
  have hp := List.mem_permutations.1 hperm
  constructor <;> intro hmem <;> exact absurd (hp.mem_iff.1 hmem) (by decide)

/-- C4 witness: the order the dispatcher actually produces — timer, camera,
then the thread-local render — is a valid execution order and contains no
Mechanics system. -/
theorem mechanics_gravity_never_scheduled_witness :
    isExecutionOrder [SystemId.timer, SystemId.camera, SystemId.render] ∧
    SystemId.mechanics ∉ [SystemId.timer, SystemId.camera, SystemId.render] := by
  have h : isExecutionOrder [SystemId.timer, SystemId.camera, SystemId.render] :=
    ⟨by decide, by decide⟩
  exact ⟨h, (mechanics_gravity_never_scheduled _ h).1⟩

/-- C6: after any single ControlCamera run, the written Controls resource
has mouse_dx, mouse_dy and mouse_scroll all exactly zero, whatever their
values before the run. -/
theorem camera_control_drains_mouse_and_scroll (sn cs : ℚ → ℚ) (cc : ControlCamera)
    (dt : ℚ) (controls : Controls) (camera : Camera) :
    (controlCameraRun sn cs cc dt controls camera).1.mouse_dx = 0 ∧
    (controlCameraRun sn cs cc dt controls camera).1.mouse_dy = 0 ∧
    (controlCameraRun sn cs cc dt controls camera).1.mouse_scroll = 0 :=
  ⟨rfl, rfl, rfl⟩

/-- C7 counterexample: from the default camera, a single run under mouse
delta dy = -10 (with dt = 1, default speed and sensitivity and constant
trigonometric stubs) sets the pitch to exactly SAFE_FRAC_PI_2, so the pitch
does not lie strictly below the clamp constant as the claim requires. -/
theorem camera_pitch_reaches_clamp_bound :
    pitchProbe.pitch = SAFE_FRAC_PI_2 ∧ ¬pitchProbe.pitch < SAFE_FRAC_PI_2 := by
  have h : pitchProbe.pitch =
      (if (0 : ℚ) + -(-10) * 1 * 1 < -SAFE_FRAC_PI_2 then -SAFE_FRAC_PI_2
        else
          if (0 : ℚ) + -(-10) * 1 * 1 > SAFE_FRAC_PI_2 then SAFE_FRAC_PI_2
          else (0 : ℚ) + -(-10) * 1 * 1) := rfl
  have h10 : ¬((0 : ℚ) + -(-10) * 1 * 1 < -SAFE_FRAC_PI_2) := by
    norm_num [SAFE_FRAC_PI_2]
  have h11 : (0 : ℚ) + -(-10) * 1 * 1 > SAFE_FRAC_PI_2 := by
    norm_num [SAFE_FRAC_PI_2]
  rw [h, if_neg h10, if_pos h11]
  exact ⟨rfl, lt_irrefl _⟩

/-- C7 amended: after any ControlCamera run, the camera pitch lies in the
closed interval from -SAFE_FRAC_PI_2 to SAFE_FRAC_PI_2 — the clamp can set
the pitch exactly to either bound, so the interval is closed, not open. -/
theorem camera_pitch_within_closed_clamp (sn cs : ℚ → ℚ) (cc : ControlCamera)
    (dt : ℚ) (controls : Controls) (camera : Camera) :
    -SAFE_FRAC_PI_2 ≤ (controlCameraRun sn cs cc dt controls camera).2.pitch ∧
    (controlCameraRun sn cs cc dt controls camera).2.pitch ≤ SAFE_FRAC_PI_2 := by
  have hS : (0 : ℚ) ≤ SAFE_FRAC_PI_2 := by norm_num [SAFE_FRAC_PI_2]
  have hpitch : (controlCameraRun sn cs cc dt controls camera).2.pitch =
      (if camera.pitch + -controls.mouse_dy * cc.sensitivity * dt < -SAFE_FRAC_PI_2
        then -SAFE_FRAC_PI_2
        else
          if camera.pitch + -controls.mouse_dy * cc.sensitivity * dt > SAFE_FRAC_PI_2
            then SAFE_FRAC_PI_2
            else camera.pitch + -controls.mouse_dy * cc.sensitivity * dt) := rfl
  rw [hpitch]
  split_ifs with h1 h2 <;> constructor <;> linarith

/-- C8 counterexample: two consecutive mouse-motion events with deltas
(1, 2) then (3, 4) leave the stored mouse delta at (3, 4), not at the sum
(4, 6); two consecutive scroll events of -1 and -2 pixels leave the stored
scroll at 2, not at the sum 3. -/
theorem process_mouse_overwrite_counterexample :
    ¬((process_mouse (process_mouse Controls.default (1, 2)) (3, 4)).mouse_dx = 1 + 3 ∧
      (process_mouse (process_mouse Controls.default (1, 2)) (3, 4)).mouse_dy = 2 + 4) ∧
    ¬(process_wheel (process_wheel Controls.default (MouseScrollDelta.pixelDelta 0 (-1)))
        (MouseScrollDelta.pixelDelta 0 (-2))).mouse_scroll = 1 + 2 := by
  have h1 : (process_mouse (process_mouse Controls.default (1, 2)) (3, 4)).mouse_dx =
      (3 : ℚ) := rfl
  have h3 : (process_wheel (process_wheel Controls.default
      (MouseScrollDelta.pixelDelta 0 (-1))) (MouseScrollDelta.pixelDelta 0 (-2))).mouse_scroll =
      -(-2 : ℚ) := rfl
  constructor
  · intro hc
    rw [h1] at hc
    have := hc.1
    norm_num at this
  · intro hc
    rw [h3] at hc
    norm_num at hc

/-- C8 amended: the stored deltas have overwrite semantics, not accumulate
semantics — after two consecutive process_mouse calls the stored mouse
delta equals the second delta alone (the first is discarded), and likewise
two consecutive process_wheel calls store only the contribution of the
second event. -/
theorem process_mouse_wheel_last_event_wins (c : Controls) (d1 d2 : ℚ × ℚ)
    (w1 w2 : MouseScrollDelta) :
    process_mouse (process_mouse c d1) d2 = process_mouse c d2 ∧
    (process_mouse c d2).mouse_dx = d2.1 ∧
    (process_mouse c d2).mouse_dy = d2.2 ∧
    process_wheel (process_wheel c w1) w2 = process_wheel c w2 :=
  ⟨rfl, rfl, rfl, rfl⟩

/-- C9: build_planets creates exactly one entity per row of the nine-entry
PLANETS table, sun through neptune, and every created entity carries the
Planet marker, the row Position and Velocity, the row Mass and a zero
Acceleration. -/
theorem build_planets_seeds_nine_full_bodies :
    build_planets.length = 9 ∧
    PLANETS.length = 9 ∧
    PLANETS.map PlanetData.name =
      ["sun", "mercury", "venus", "earth", "mars", "jupiter", "saturn", "uranus",
        "neptune"] ∧
    build_planets.map Entity.planet = List.replicate 9 true ∧
    build_planets.map Entity.mass = PLANETS.map (fun pd => some pd.mass) ∧
    build_planets.map Entity.pos = PLANETS.map (fun pd => some pd.position) ∧
    build_planets.map Entity.vel = PLANETS.map (fun pd => some pd.velocity) ∧
    build_planets.map Entity.acc = List.replicate 9 (some (0 : Vec3)) :=
  ⟨rfl, rfl, rfl, rfl, rfl, rfl, rfl, rfl⟩

/-- C10: process_keyboard on an input with no virtual keycode, or with an
unrecognized keycode, returns false and leaves the Controls value unchanged;
on each of the ten recognized keycodes it returns true and rewrites exactly
the matching movement flag with the pressed state. -/
theorem process_keyboard_flag_semantics (c : Controls) (st : ElementState) :
    process_keyboard c ⟨st, none⟩ = (c, false) ∧
    (∀ n, process_keyboard c ⟨st, some (VirtualKeyCode.other n)⟩ = (c, false)) ∧
    process_keyboard c ⟨st, some VirtualKeyCode.space⟩ =
      ({ c with is_up_pressed := pressedBool st }, true) ∧
    process_keyboard c ⟨st, some VirtualKeyCode.lshift⟩ =
      ({ c with is_down_pressed := pressedBool st }, true) ∧
    process_keyboard c ⟨st, some VirtualKeyCode.w⟩ =
      ({ c with is_forward_pressed := pressedBool st }, true) ∧
    process_keyboard c ⟨st, some VirtualKeyCode.up⟩ =
      ({ c with is_forward_pressed := pressedBool st }, true) ∧
    process_keyboard c ⟨st, some VirtualKeyCode.a⟩ =
      ({ c with is_left_pressed := pressedBool st }, true) ∧
    process_keyboard c ⟨st, some VirtualKeyCode.left⟩ =
      ({ c with is_left_pressed := pressedBool st }, true) ∧
    process_keyboard c ⟨st, some VirtualKeyCode.s⟩ =
      ({ c with is_backward_pressed := pressedBool st }, true) ∧
    process_keyboard c ⟨st, some VirtualKeyCode.down⟩ =
      ({ c with is_backward_pressed := pressedBool st }, true) ∧
    process_keyboard c ⟨st, some VirtualKeyCode.d⟩ =
      ({ c with is_right_pressed := pressedBool st }, true) ∧
    process_keyboard c ⟨st, some VirtualKeyCode.right⟩ =
      ({ c with is_right_pressed := pressedBool st }, true) :=
  ⟨rfl, fun _ => rfl, rfl, rfl, rfl, rfl, rfl, rfl, rfl, rfl, rfl, rfl⟩

end SolarSim
